import Mathlib

/-!
Shallow embedding of the `CPU` class of `src/colored.py` (lines 12-136).

Python data structures are modelled as follows:
* a Python `dict` becomes `Dict α β`: an ordered key list plus a total
  value function; indexing a missing key (`d[k]` read) is `Dict.get?`
  returning `none` (a `KeyError`), assignment `d[k] = v` is `Dict.set`
  which inserts the key at the end when it is new, `d.get(k, 0)` is
  `Dict.getD`;
* a Python `set` becomes a duplicate-free `List` built with `setAdd`
  (the claims only look at its contents);
* Python integers are `Int` (arbitrary precision);
* an attribute that can be absent (`self.ir = None`, the
  `opcode`/`operands` pair deleted by `delattr`) becomes an `Option`
  (the source always sets and deletes `opcode` and `operands` together,
  so the pair is one `Option` field `decoded`);
* a method returning through an uncaught exception is modelled by
  `PyResult.exn`; inside `execute` every exception is caught by the
  `except` clause, so `execute` returns plainly.
-/

/-- Outcome of a Python method call: a returned value, or an uncaught
exception escaping the call. -/
inductive PyResult (α : Type) where
  | ret (a : α) : PyResult α
  | exn : PyResult α
deriving DecidableEq, Repr

/-- Python `dict`: insertion-ordered key list plus a total value
function (values of absent keys are irrelevant, reads guard on `keys`). -/
structure Dict (α β : Type) [DecidableEq α] where
  keys : List α
  val : α → β

/-- Read `d[k]`: `none` models a `KeyError`. -/
def Dict.get? {α β : Type} [DecidableEq α] (d : Dict α β) (k : α) : Option β :=
  if k ∈ d.keys then some (d.val k) else none

/-- Python `d.get(k, dflt)`. -/
def Dict.getD {α β : Type} [DecidableEq α] (d : Dict α β) (k : α) (dflt : β) : β :=
  if k ∈ d.keys then d.val k else dflt

/-- Assignment `d[k] = v`: inserts the key at the end when new. -/
def Dict.set {α β : Type} [DecidableEq α] (d : Dict α β) (k : α) (v : β) : Dict α β :=
  ⟨if k ∈ d.keys then d.keys else d.keys ++ [k], fun x => if x = k then v else d.val x⟩

/-- Python `set.add`: append when absent. -/
def setAdd {α : Type} [DecidableEq α] (l : List α) (x : α) : List α :=
  if x ∈ l then l else l ++ [x]

/-- Whitespace characters recognized by Python `str.split()` (the subset
that can occur in instruction text). -/
def isWs (c : Char) : Bool :=
  c = ' ' || c = '\t' || c = '\n' || c = '\r'

/-- Helper for `tokenize`: walks the characters, accumulating the current
token in reverse. -/
def tokensAux : List Char → List Char → List (List Char)
  | [], [] => []
  | [], cur => [cur.reverse]
  | c :: rest, cur =>
    if isWs c then
      match cur with
      | [] => tokensAux rest []
      | _ => cur.reverse :: tokensAux rest []
    else tokensAux rest (c :: cur)

/-- Python `str.split()` with no argument: whitespace-separated tokens,
empty tokens discarded. -/
def tokenize (s : String) : List String :=
  (tokensAux s.data []).map fun cs => ⟨cs⟩

/-- ASCII upper-casing of one character, as Python `str.upper()` does on
the opcode tokens that occur here. -/
def upperChar (c : Char) : Char :=
  if 'a' ≤ c && c ≤ 'z' then Char.ofNat (c.toNat - 32) else c

/-- Python `str.upper()`. -/
def upperStr (s : String) : String :=
  ⟨s.data.map upperChar⟩

/-- Value of one digit in base ≤ 16, `none` when the character is not a
digit of that base. -/
def digitVal (base : Nat) (c : Char) : Option Nat :=
  let n := c.toNat
  let v : Option Nat :=
    if 48 ≤ n ∧ n ≤ 57 then some (n - 48)
    else if 97 ≤ n ∧ n ≤ 102 then some (n - 87)
    else if 65 ≤ n ∧ n ≤ 70 then some (n - 55)
    else none
  match v with
  | some d => if d < base then some d else none
  | none => none

/-- Value of a nonempty digit string in the given base; `none` on an empty
or malformed string (a Python `ValueError`). -/
def digitsVal (base : Nat) : List Char → Option Nat
  | [] => none
  | cs => go cs 0
where
  go : List Char → Nat → Option Nat
    | [], acc => some acc
    | c :: rest, acc =>
      match digitVal base c with
      | some d => go rest (acc * base + d)
      | none => none

/-- Strip one optional leading sign; returns (isNegative, rest). -/
def stripSign : List Char → Bool × List Char
  | '-' :: rest => (true, rest)
  | '+' :: rest => (false, rest)
  | cs => (false, cs)

/-- Strip one optional `0x` / `0X` marker (accepted by Python
`int(s, 16)`). -/
def stripHexMark : List Char → List Char
  | '0' :: 'x' :: rest => rest
  | '0' :: 'X' :: rest => rest
  | cs => cs

/-- Python `int(s)`: optional sign then nonempty decimal digits. -/
def pyInt (s : String) : Option Int :=
  let p := stripSign s.data
  (digitsVal 10 p.2).map fun n => if p.1 then -(n : Int) else (n : Int)

/-- Python `int(s, 16)`: optional sign, optional `0x` marker, nonempty
hex digits. -/
def pyIntHex (s : String) : Option Int :=
  let p := stripSign s.data
  (digitsVal 16 (stripHexMark p.2)).map fun n => if p.1 then -(n : Int) else (n : Int)

/-- Does the token start with the two characters `0x`? (Python
`addr.startswith('0x')`.) -/
def starts0x (s : String) : Bool :=
  match s.data with
  | '0' :: 'x' :: _ => true
  | _ => false

/-- Address-literal parsing as in `execute` (lines 91, 98, 110, 115):
`int(addr, 16) if addr.startswith('0x') else int(addr)`. -/
def parseAddr (s : String) : Option Int :=
  if starts0x s then pyIntHex s else pyInt s

/-- Python list indexing `l[i]` (negative indices count from the end);
`none` models an `IndexError`. -/
def pyIndex (l : List String) (i : Int) : Option String :=
  if 0 ≤ i then l[i.toNat]?
  else if 0 ≤ i + l.length then l[(i + (l.length : Int)).toNat]?
  else none

/-- The five control-signal booleans (line 23). -/
structure ControlSignals where
  fetch : Bool
  decode : Bool
  execute : Bool
  memory : Bool
  writeback : Bool
deriving DecidableEq, Repr

def sigOff : ControlSignals := ⟨false, false, false, false, false⟩
def sigFetch : ControlSignals := ⟨true, false, false, false, false⟩
def sigDecode : ControlSignals := ⟨false, true, false, false, false⟩
def sigExecute : ControlSignals := ⟨false, false, true, false, false⟩

/-- The mutable state of the Python `CPU` object. -/
structure CPU where
  registers : Dict String Int
  memory : Dict Int Int
  pc : Int
  ir : Option String
  instructions : List String
  alu_output : Int
  control_signals : ControlSignals
  halted : Bool
  changed_registers : List String
  changed_memory : List Int
  decoded : Option (String × List String)

/-- Line 17: `{f"R{i}": 0 for i in range(8)}`. -/
def initRegisters : Dict String Int :=
  ⟨["R0", "R1", "R2", "R3", "R4", "R5", "R6", "R7"], fun _ => 0⟩

/-- Line 18: `{i: 0 for i in range(0, 256, 4)}`. -/
def initMemory : Dict Int Int :=
  ⟨(List.range 64).map fun i => ((4 * i : Nat) : Int), fun _ => 0⟩

/-- The state `__init__` produces (a fresh object has neither `opcode`
nor `operands`). -/
def initCPU : CPU :=
  { registers := initRegisters
    memory := initMemory
    pc := 0
    ir := none
    instructions := []
    alu_output := 0
    control_signals := sigOff
    halted := false
    changed_registers := []
    changed_memory := []
    decoded := none }

/-- `reset` (lines 16-32). It reassigns every field listed there but
never touches the `opcode`/`operands` attributes, so `decoded` survives. -/
def CPU.reset (s : CPU) : CPU :=
  { initCPU with decoded := s.decoded }

/-- `load_program` (lines 34-44): replaces the program, clears pc, ir,
the decoded attributes, halted and both change sets; registers and
memory are untouched. -/
def CPU.load_program (s : CPU) (program : List String) : CPU :=
  { s with
    instructions := program
    pc := 0
    ir := none
    decoded := none
    halted := false
    changed_registers := []
    changed_memory := [] }

/-- `fetch` (lines 46-54). Past the end of the program it halts and
returns `False` before touching the signals; otherwise it sets the fetch
signal and copies the current line into `ir`. `pyIndex` models Python
list indexing (negative pc reads from the end; far negative raises). -/
def CPU.fetch (s : CPU) : CPU × PyResult Bool :=
  if (s.instructions.length : Int) ≤ s.pc then
    ({ s with halted := true }, .ret false)
  else
    match pyIndex s.instructions s.pc with
    | some line => ({ s with control_signals := sigFetch, ir := some line }, .ret true)
    | none => ({ s with control_signals := sigFetch }, .exn)

/-- `decode` (lines 56-65). `if not self.ir` is Python truthiness: `None`
or the empty string return `False`. A non-empty all-whitespace `ir`
tokenizes to `[]`, so `parts[0]` raises an uncaught `IndexError`. -/
def CPU.decode (s : CPU) : CPU × PyResult Bool :=
  match s.ir with
  | none => ({ s with control_signals := sigDecode }, .ret false)
  | some line =>
    if line = "" then ({ s with control_signals := sigDecode }, .ret false)
    else
      match tokenize line with
      | [] => ({ s with control_signals := sigDecode }, .exn)
      | op :: rest =>
        ({ s with control_signals := sigDecode, decoded := some (upperStr op, rest) }, .ret true)

/-- The opcode dispatch inside the `try` of `execute` (lines 77-127),
excluding `HALT` which returns directly and raises nothing. `.ok s2` is
normal fall-through to line 129; `.error s2` is a raised exception (wrong
operand count at tuple unpacking, `KeyError` on a register read,
`ValueError` from `int`, `IndexError` on `operands[0]`, or the explicit
`ValueError` for an unknown opcode), carrying the state at the moment of
the raise. Mutation order follows the source lines exactly. -/
def dispatch (s : CPU) (op : String) (ops : List String) : Except CPU CPU :=
  if op = "ADD" then
    match ops with
    | [rd, rs1, rs2] =>
      match s.registers.get? rs1, s.registers.get? rs2 with
      | some v1, some v2 =>
        .ok { s with
          alu_output := v1 + v2
          registers := s.registers.set rd (v1 + v2)
          changed_registers := setAdd s.changed_registers rd }
      | _, _ => .error s
    | _ => .error s
  else if op = "SUB" then
    match ops with
    | [rd, rs1, rs2] =>
      match s.registers.get? rs1, s.registers.get? rs2 with
      | some v1, some v2 =>
        .ok { s with
          alu_output := v1 - v2
          registers := s.registers.set rd (v1 - v2)
          changed_registers := setAdd s.changed_registers rd }
      | _, _ => .error s
    | _ => .error s
  else if op = "LOAD" then
    match ops with
    | [rd, addr] =>
      match parseAddr addr with
      | some a =>
        .ok { s with
          control_signals := { s.control_signals with memory := true }
          registers := s.registers.set rd (s.memory.getD a 0)
          changed_registers := setAdd s.changed_registers rd }
      | none => .error s
    | _ => .error s
  else if op = "STORE" then
    match ops with
    | [rs, addr] =>
      match parseAddr addr with
      | some a =>
        match s.registers.get? rs with
        | some v =>
          .ok { s with
            control_signals := { s.control_signals with memory := true }
            memory := s.memory.set a v
            changed_memory := setAdd s.changed_memory a }
        | none => .error { s with control_signals := { s.control_signals with memory := true } }
      | none => .error s
    | _ => .error s
  else if op = "MOV" then
    match ops with
    | [rd, imm] =>
      match pyInt imm with
      | some v =>
        .ok { s with
          registers := s.registers.set rd v
          changed_registers := setAdd s.changed_registers rd }
      | none => .error s
    | _ => .error s
  else if op = "JUMP" then
    match ops with
    | [] => .error s
    | a :: _ =>
      match parseAddr a with
      | some v => .ok { s with pc := v - 1 }
      | none => .error s
  else if op = "BEQ" then
    match ops with
    | [rs1, rs2, addr] =>
      match parseAddr addr with
      | some a =>
        match s.registers.get? rs1, s.registers.get? rs2 with
        | some v1, some v2 =>
          .ok (if v1 = v2 then { s with pc := a - 1 } else s)
        | _, _ => .error s
      | none => .error s
    | _ => .error s
  else if op = "NOP" then .ok s
  else .error s

/-- Body of `execute` from line 73 on, given a decoded opcode: clears
both change sets, handles `HALT` (sets halted, returns `False`, no pc
advance), otherwise dispatches; on fall-through sets the writeback signal
and advances pc (lines 129-131); a raised exception is caught by the
`except` clause (lines 133-136) which halts and returns `False`. -/
def executeCore (s : CPU) (op : String) (ops : List String) : CPU × Bool :=
  if op = "HALT" then
    ({ s with changed_registers := [], changed_memory := [], halted := true }, false)
  else
    match dispatch { s with changed_registers := [], changed_memory := [] } op ops with
    | .ok s2 =>
      ({ s2 with
          control_signals := { s2.control_signals with writeback := true }
          pc := s2.pc + 1 }, true)
    | .error s2 => ({ s2 with halted := true }, false)

/-- `execute` (lines 67-136): sets the execute signal, returns `False`
when no `opcode` attribute is present (line 70), otherwise runs
`executeCore`. -/
def CPU.execute (s : CPU) : CPU × Bool :=
  match s.decoded with
  | none => ({ s with control_signals := sigExecute }, false)
  | some (op, ops) => executeCore { s with control_signals := sigExecute } op ops

/-- The opcodes line 77-124 recognize. -/
def knownOps : List String :=
  ["ADD", "SUB", "LOAD", "STORE", "MOV", "JUMP", "BEQ", "NOP", "HALT"]

/-- Whether the operand list of a known opcode resolves, mirroring the
failure conditions of `dispatch` exactly: right operand count, register
reads that hit existing keys, and literals `int` accepts. -/
def operandsResolve (regs : Dict String Int) (op : String) (ops : List String) : Bool :=
  if op = "ADD" then
    match ops with
    | [_, rs1, rs2] => (regs.get? rs1).isSome && (regs.get? rs2).isSome
    | _ => false
  else if op = "SUB" then
    match ops with
    | [_, rs1, rs2] => (regs.get? rs1).isSome && (regs.get? rs2).isSome
    | _ => false
  else if op = "LOAD" then
    match ops with
    | [_, addr] => (parseAddr addr).isSome
    | _ => false
  else if op = "STORE" then
    match ops with
    | [rs, addr] => (parseAddr addr).isSome && (regs.get? rs).isSome
    | _ => false
  else if op = "MOV" then
    match ops with
    | [_, imm] => (pyInt imm).isSome
    | _ => false
  else if op = "JUMP" then
    match ops with
    | [] => false
    | a :: _ => (parseAddr a).isSome
  else if op = "BEQ" then
    match ops with
    | [rs1, rs2, addr] =>
      (parseAddr addr).isSome && (regs.get? rs1).isSome && (regs.get? rs2).isSome
    | _ => false
  else if op = "NOP" then true
  else false

example : tokenize "MOV R1 5" = ["MOV", "R1", "5"] := by decide
example : tokenize "  " = [] := by decide
example : upperStr "mov" = "MOV" := by decide
example : parseAddr "0x100" = some 256 := by decide
example : parseAddr "256" = some 256 := by decide
example : parseAddr "0x" = none := by decide
example : pyInt "0x10" = none := by decide
example :
    (((initCPU.load_program ["MOV R1 5"]).fetch.1.decode).1.execute).1.registers.getD "R1" 0 = 5 := by
  decide

/-- A key of a dict survives any assignment. -/
theorem Dict.mem_keys_set {α β : Type} [DecidableEq α] (d : Dict α β) (k' : α) (v : β)
    (k : α) (hk : k ∈ d.keys) : k ∈ (d.set k' v).keys := by
  unfold Dict.set
  dsimp only
  split
  · exact hk
  · exact List.mem_append_left _ hk

/-- Reading back the key just assigned. -/
theorem Dict.getD_set_self {α β : Type} [DecidableEq α] (d : Dict α β) (k : α) (v dflt : β) :
    (d.set k v).getD k dflt = v := by
  unfold Dict.set Dict.getD
  dsimp only
  have hk : k ∈ (if k ∈ d.keys then d.keys else d.keys ++ [k]) := by
    split
    · assumption
    · exact List.mem_append_right _ (List.mem_singleton_self k)
  rw [if_pos hk, if_pos rfl]

/-- Key set after an assignment: unchanged on an existing key, the new
key appended otherwise. -/
theorem Dict.keys_set {α β : Type} [DecidableEq α] (d : Dict α β) (k : α) (v : β) :
    (d.set k v).keys = if k ∈ d.keys then d.keys else d.keys ++ [k] := rfl

/-- Unfolding `execute` when a decoded opcode is present. -/
theorem CPU.execute_some (s : CPU) (op : String) (ops : List String)
    (h : s.decoded = some (op, ops)) :
    s.execute = executeCore { s with control_signals := sigExecute } op ops := by
  unfold CPU.execute
  rw [h]

/-- Unfolding `execute` when no decoded opcode is present. -/
theorem CPU.execute_none (s : CPU) (h : s.decoded = none) :
    s.execute = ({ s with control_signals := sigExecute }, false) := by
  unfold CPU.execute
  rw [h]

/-- `fetch` never touches registers, memory, pc, the change sets, the
program, the decoded attributes or the ALU snapshot. -/
theorem fetch_frame (s : CPU) :
    (s.fetch).1.registers = s.registers ∧ (s.fetch).1.memory = s.memory ∧
    (s.fetch).1.pc = s.pc ∧
    (s.fetch).1.changed_registers = s.changed_registers ∧
    (s.fetch).1.changed_memory = s.changed_memory ∧
    (s.fetch).1.instructions = s.instructions ∧
    (s.fetch).1.decoded = s.decoded ∧
    (s.fetch).1.alu_output = s.alu_output := by
  unfold CPU.fetch
  split
  · exact ⟨rfl, rfl, rfl, rfl, rfl, rfl, rfl, rfl⟩
  · split <;> exact ⟨rfl, rfl, rfl, rfl, rfl, rfl, rfl, rfl⟩

/-- `decode` never touches registers, memory, pc, ir, halted, the change
sets, the program or the ALU snapshot. -/
theorem decode_frame (s : CPU) :
    (s.decode).1.registers = s.registers ∧ (s.decode).1.memory = s.memory ∧
    (s.decode).1.pc = s.pc ∧
    (s.decode).1.changed_registers = s.changed_registers ∧
    (s.decode).1.changed_memory = s.changed_memory ∧
    (s.decode).1.ir = s.ir ∧ (s.decode).1.halted = s.halted ∧
    (s.decode).1.instructions = s.instructions ∧
    (s.decode).1.alu_output = s.alu_output := by
  unfold CPU.decode
  split
  · exact ⟨rfl, rfl, rfl, rfl, rfl, rfl, rfl, rfl, rfl⟩
  · split
    · exact ⟨rfl, rfl, rfl, rfl, rfl, rfl, rfl, rfl, rfl⟩
    · split <;> exact ⟨rfl, rfl, rfl, rfl, rfl, rfl, rfl, rfl, rfl⟩

/-- `fetch` never clears the halted flag. -/
theorem fetch_halted_mono (s : CPU) (h : s.halted = true) : (s.fetch).1.halted = true := by
  unfold CPU.fetch
  split
  · rfl
  · split <;> exact h

/-- `decode` never touches the halted flag at all. -/
theorem decode_halted_mono (s : CPU) (h : s.halted = true) : (s.decode).1.halted = true := by
  unfold CPU.decode
  split
  · exact h
  · split
    · exact h
    · split <;> exact h

/-- A raised (and caught) exception inside the dispatch leaves every
field except the control signals exactly as it found them. -/
theorem dispatch_error_frame (s : CPU) (op : String) (ops : List String) (e : CPU)
    (h : dispatch s op ops = .error e) :
    e.registers = s.registers ∧ e.memory = s.memory ∧ e.pc = s.pc ∧
    e.halted = s.halted ∧ e.changed_registers = s.changed_registers ∧
    e.changed_memory = s.changed_memory ∧ e.ir = s.ir ∧ e.decoded = s.decoded ∧
    e.alu_output = s.alu_output ∧ e.instructions = s.instructions := by
  unfold dispatch at h
  split_ifs at h <;> repeat' split at h
  all_goals first
    | exact Except.noConfusion h
    | (injection h with h; subst h;
       exact ⟨rfl, rfl, rfl, rfl, rfl, rfl, rfl, rfl, rfl, rfl⟩)

/-- A successful dispatch leaves halted, ir, the decoded attributes and
the program unchanged, leaves pc unchanged except for JUMP/BEQ, and never
removes a register key. -/
theorem dispatch_ok_frame (s : CPU) (op : String) (ops : List String) (t : CPU)
    (h : dispatch s op ops = .ok t) :
    t.halted = s.halted ∧ t.ir = s.ir ∧ t.decoded = s.decoded ∧
    t.instructions = s.instructions ∧
    (op ≠ "JUMP" → op ≠ "BEQ" → t.pc = s.pc) ∧
    (∀ k, k ∈ s.registers.keys → k ∈ t.registers.keys) := by
  unfold dispatch at h
  split_ifs at h <;> repeat' split at h
  all_goals first
    | exact Except.noConfusion h
    | (injection h with h; subst h;
       refine ⟨rfl, rfl, rfl, rfl, ?_, fun k hk => ?_⟩ <;>
         first
           | exact fun _ _ => rfl
           | exact Dict.mem_keys_set _ _ _ _ hk
           | exact hk
           | simp_all)

/-- An opcode outside the recognized set falls through to the final
`raise` with the state untouched. -/
theorem dispatch_unknown (s : CPU) (op : String) (ops : List String) (h : op ∉ knownOps) :
    dispatch s op ops = .error s := by
  simp only [knownOps, List.mem_cons, List.not_mem_nil, or_false] at h
  push_neg at h
  obtain ⟨h1, h2, h3, h4, h5, h6, h7, h8, h9⟩ := h
  unfold dispatch
  rw [if_neg h1, if_neg h2, if_neg h3, if_neg h4, if_neg h5, if_neg h6, if_neg h7, if_neg h8]

/-- Unfolding `executeCore` on a successful dispatch. -/
theorem executeCore_ok (s : CPU) (op : String) (ops : List String) (t : CPU)
    (hH : op ≠ "HALT")
    (h : dispatch { s with changed_registers := [], changed_memory := [] } op ops = .ok t) :
    executeCore s op ops =
      ({ t with
          control_signals := { t.control_signals with writeback := true }
          pc := t.pc + 1 }, true) := by
  unfold executeCore
  rw [if_neg hH, h]

/-- Unfolding `executeCore` on a failing dispatch. -/
theorem executeCore_error (s : CPU) (op : String) (ops : List String) (e : CPU)
    (hH : op ≠ "HALT")
    (h : dispatch { s with changed_registers := [], changed_memory := [] } op ops = .error e) :
    executeCore s op ops = ({ e with halted := true }, false) := by
  unfold executeCore
  rw [if_neg hH, h]

/-- Unfolding `executeCore` on `HALT`. -/
theorem executeCore_halt (s : CPU) (ops : List String) :
    executeCore s "HALT" ops =
      ({ s with changed_registers := [], changed_memory := [], halted := true }, false) := rfl

/-- When the operands of a known opcode fail to resolve, the dispatch
raises. -/
theorem dispatch_error_of_not_resolve (s : CPU) (op : String) (ops : List String)
    (h : operandsResolve s.registers op ops = false) :
    ∃ e, dispatch s op ops = .error e := by
  unfold operandsResolve at h
  unfold dispatch
  split_ifs at h ⊢ <;>
    rcases ops with _ | ⟨o1, _ | ⟨o2, _ | ⟨o3, _ | ⟨o4, rest⟩⟩⟩⟩ <;>
    (repeat' split) <;>
    (first
      | exact ⟨_, rfl⟩
      | simp_all)

/-- `execute` never clears the halted flag. -/
theorem execute_halted_mono (s : CPU) (h : s.halted = true) : (s.execute).1.halted = true := by
  cases hdec : s.decoded with
  | none => rw [CPU.execute_none s hdec]; exact h
  | some p =>
    obtain ⟨op, ops⟩ := p
    rw [CPU.execute_some s op ops hdec]
    by_cases hH : op = "HALT"
    · subst hH; rw [executeCore_halt]
    · cases hd : dispatch
        { s with control_signals := sigExecute, changed_registers := [], changed_memory := [] }
        op ops with
      | ok t =>
        rw [executeCore_ok _ _ _ _ hH hd]
        exact ((dispatch_ok_frame _ _ _ _ hd).1).trans h
      | error e => rw [executeCore_error _ _ _ _ hH hd]

/-- `execute` never removes a register key. -/
theorem execute_keys_mono (s : CPU) (k : String) (hk : k ∈ s.registers.keys) :
    k ∈ (s.execute).1.registers.keys := by
  cases hdec : s.decoded with
  | none => rw [CPU.execute_none s hdec]; exact hk
  | some p =>
    obtain ⟨op, ops⟩ := p
    rw [CPU.execute_some s op ops hdec]
    by_cases hH : op = "HALT"
    · subst hH; rw [executeCore_halt]; exact hk
    · cases hd : dispatch
        { s with control_signals := sigExecute, changed_registers := [], changed_memory := [] }
        op ops with
      | ok t =>
        rw [executeCore_ok _ _ _ _ hH hd]
        exact (dispatch_ok_frame _ _ _ _ hd).2.2.2.2.2 k hk
      | error e =>
        rw [executeCore_error _ _ _ _ hH hd]
        have := (dispatch_error_frame _ _ _ _ hd).1
        show k ∈ e.registers.keys
        rw [this]
        exact hk

/-- Claim C8: an address token starting with 0x parses as hexadecimal and
any other token as decimal, so a LOAD from "0x100" and a LOAD from "256"
read the identical memory cell in every machine state, and likewise a
STORE to "0x100" and to "256" write the identical cell: the two decoded
instructions produce the same registers, memory, pc and outcome (only the
retained operand text differs). -/
theorem hex_decimal_address_equiv (s : CPU) (r : String) :
    ((CPU.execute { s with decoded := some ("LOAD", [r, "0x100"]) }).1.registers =
        (CPU.execute { s with decoded := some ("LOAD", [r, "256"]) }).1.registers ∧
      (CPU.execute { s with decoded := some ("LOAD", [r, "0x100"]) }).1.memory =
        (CPU.execute { s with decoded := some ("LOAD", [r, "256"]) }).1.memory ∧
      (CPU.execute { s with decoded := some ("LOAD", [r, "0x100"]) }).1.pc =
        (CPU.execute { s with decoded := some ("LOAD", [r, "256"]) }).1.pc ∧
      (CPU.execute { s with decoded := some ("LOAD", [r, "0x100"]) }).2 =
        (CPU.execute { s with decoded := some ("LOAD", [r, "256"]) }).2) ∧
    ((CPU.execute { s with decoded := some ("STORE", [r, "0x100"]) }).1.registers =
        (CPU.execute { s with decoded := some ("STORE", [r, "256"]) }).1.registers ∧
      (CPU.execute { s with decoded := some ("STORE", [r, "0x100"]) }).1.memory =
        (CPU.execute { s with decoded := some ("STORE", [r, "256"]) }).1.memory ∧
      (CPU.execute { s with decoded := some ("STORE", [r, "0x100"]) }).1.pc =
        (CPU.execute { s with decoded := some ("STORE", [r, "256"]) }).1.pc ∧
      (CPU.execute { s with decoded := some ("STORE", [r, "0x100"]) }).2 =
        (CPU.execute { s with decoded := some ("STORE", [r, "256"]) }).2) := by
  have hx : parseAddr "0x100" = some 256 := by decide
  have hd : parseAddr "256" = some 256 := by decide
  constructor
  · simp [CPU.execute, executeCore, dispatch, hx, hd]
  · cases hg : s.registers.get? r <;>
      simp [CPU.execute, executeCore, dispatch, hx, hd, hg]

/-- Claim C9: fetch and decode leave the registers map, the memory map
and both change sets unchanged; decode additionally leaves pc, ir and
halted unchanged, and fetch leaves pc unchanged in all cases. -/
theorem fetch_decode_frame (s : CPU) :
    (s.fetch).1.registers = s.registers ∧ (s.fetch).1.memory = s.memory ∧
    (s.fetch).1.changed_registers = s.changed_registers ∧
    (s.fetch).1.changed_memory = s.changed_memory ∧
    (s.fetch).1.pc = s.pc ∧
    (s.decode).1.registers = s.registers ∧ (s.decode).1.memory = s.memory ∧
    (s.decode).1.changed_registers = s.changed_registers ∧
    (s.decode).1.changed_memory = s.changed_memory ∧
    (s.decode).1.pc = s.pc ∧ (s.decode).1.ir = s.ir ∧
    (s.decode).1.halted = s.halted := by
  obtain ⟨f1, f2, f3, f4, f5, -, -, -⟩ := fetch_frame s
  obtain ⟨d1, d2, d3, d4, d5, d6, d7, -, -⟩ := decode_frame s
  exact ⟨f1, f2, f4, f5, f3, d1, d2, d4, d5, d3, d6, d7⟩

/-- Claim C10: ADD and SUB compute the mathematically exact integer sum
and difference of the two source registers; the destination register and
the ALU output snapshot receive that exact value with no wraparound or
truncation, for operand values of any size. -/
theorem add_sub_exact_arithmetic (s : CPU) (rd rs1 rs2 : String) (v1 v2 : Int)
    (h1 : s.registers.get? rs1 = some v1) (h2 : s.registers.get? rs2 = some v2) :
    (s.decoded = some ("ADD", [rd, rs1, rs2]) →
      (s.execute).2 = true ∧ (s.execute).1.alu_output = v1 + v2 ∧
      (s.execute).1.registers.getD rd 0 = v1 + v2) ∧
    (s.decoded = some ("SUB", [rd, rs1, rs2]) →
      (s.execute).2 = true ∧ (s.execute).1.alu_output = v1 - v2 ∧
      (s.execute).1.registers.getD rd 0 = v1 - v2) := by
  constructor <;> intro hdec <;>
    rw [CPU.execute_some s _ _ hdec] <;>
    refine ⟨?_, ?_, ?_⟩ <;>
    simp [executeCore, dispatch, h1, h2, Dict.getD_set_self]

/-- Witness for C10 at values far outside the 32-bit signed range. -/
theorem add_sub_exact_arithmetic_witness :
    (CPU.execute
        { initCPU with
          registers := (initRegisters.set "R1" 2147483647).set "R2" 2147483647
          decoded := some ("ADD", ["R3", "R1", "R2"]) }).1.registers.getD "R3" 0 =
      4294967294 := by
  have h := (add_sub_exact_arithmetic
      { initCPU with
        registers := (initRegisters.set "R1" 2147483647).set "R2" 2147483647
        decoded := some ("ADD", ["R3", "R1", "R2"]) }
      "R3" "R1" "R2" 2147483647 2147483647 (by decide) (by decide)).1 rfl
  rw [h.2.2]
  decide

/-- Claim C7 counterexample: the claim says decode never throws and fails
on whitespace-only ir; but on the reachable state with ir = " " (one
space), `parts = self.ir.split()` is empty and `parts[0]` raises an
uncaught IndexError. -/
theorem decode_total_counterexample :
    ((((initCPU.load_program [" "]).fetch).1.decode).2 = PyResult.exn) ∧
    (((initCPU.load_program [" "]).fetch).1.ir = some " ") := by
  decide

/-- Claim C7 as amended: decode returns the failed result exactly when ir
is empty or absent; for any ir with at least one token it succeeds,
setting the opcode to the upper-cased first token and the operands to the
remaining tokens; but for a non-empty ir consisting only of whitespace it
raises an uncaught exception instead of returning the failed result. -/
theorem decode_total_amended (s : CPU) :
    ((s.ir = none ∨ s.ir = some "") →
      (s.decode).2 = PyResult.ret false ∧ (s.decode).1.decoded = s.decoded) ∧
    (∀ line, s.ir = some line → line ≠ "" → tokenize line = [] →
      (s.decode).2 = PyResult.exn ∧ (s.decode).1.decoded = s.decoded) ∧
    (∀ line op rest, s.ir = some line → tokenize line = op :: rest →
      (s.decode).2 = PyResult.ret true ∧
      (s.decode).1.decoded = some (upperStr op, rest)) := by
  refine ⟨?_, ?_, ?_⟩
  · rintro (h | h) <;> (unfold CPU.decode; rw [h]) <;> exact ⟨rfl, rfl⟩
  · intro line h hne htok
    simp only [CPU.decode, h, if_neg hne, htok]
    constructor <;> first | rfl | trivial
  · intro line op rest h htok
    have hne : line ≠ "" := by
      intro he
      subst he
      exact List.noConfusion (show ([] : List String) = op :: rest from htok)
    simp only [CPU.decode, h, if_neg hne, htok]
    constructor <;> first | rfl | trivial

/-- Witness for the amended C7: a lower-case instruction decodes with the
opcode upper-cased and operand tokens kept verbatim. -/
theorem decode_total_amended_witness :
    (CPU.decode { initCPU with ir := some "mov r1 5" }).2 = PyResult.ret true ∧
    (CPU.decode { initCPU with ir := some "mov r1 5" }).1.decoded =
      some ("MOV", ["r1", "5"]) := by
  have h := (decode_total_amended { initCPU with ir := some "mov r1 5" }).2.2
      "mov r1 5" "mov" ["r1", "5"] rfl (by decide)
  refine ⟨h.1, ?_⟩
  rw [h.2]
  decide

/-- Claim C5: `reset` wipes registers, memory, pc, ir, halted, signals
and change sets, but — against the spec — it does NOT clear the decoded
instruction: after load; fetch; decode; reset the stale decoded `MOV R1 5`
is still present, and a subsequent execute runs it on the freshly reset
machine, setting R1 = 5 and pc = 1. -/
theorem reset_keeps_decoded_instruction :
    ((((initCPU.load_program ["MOV R1 5"]).fetch).1.decode).1.reset.decoded =
        some ("MOV", ["R1", "5"])) ∧
    (((((initCPU.load_program ["MOV R1 5"]).fetch).1.decode).1.reset.execute).2 = true) ∧
    (((((initCPU.load_program ["MOV R1 5"]).fetch).1.decode).1.reset.execute).1.registers.getD
        "R1" 0 = 5) ∧
    (((((initCPU.load_program ["MOV R1 5"]).fetch).1.decode).1.reset.execute).1.pc = 1) := by
  decide

/-- Claim C1: executing JUMP with a parsed operand A sets pc to exactly A
regardless of the prior pc (stored as A-1, then the +1 of line 130 lands
on A); executing BEQ rs1 rs2 A sets pc to A when the two registers are
equal and to pc+1 otherwise; any other successfully completing opcode
except HALT advances pc by exactly 1. -/
theorem execute_pc_semantics (s : CPU) (op : String) (ops : List String)
    (hdec : s.decoded = some (op, ops)) :
    (∀ a rest A, op = "JUMP" → ops = a :: rest → parseAddr a = some A →
      (s.execute).2 = true ∧ (s.execute).1.pc = A) ∧
    (∀ r1 r2 a A v1 v2, op = "BEQ" → ops = [r1, r2, a] → parseAddr a = some A →
      s.registers.get? r1 = some v1 → s.registers.get? r2 = some v2 →
      (s.execute).2 = true ∧
        (s.execute).1.pc = (if v1 = v2 then A else s.pc + 1)) ∧
    (op ≠ "JUMP" → op ≠ "BEQ" → op ≠ "HALT" → (s.execute).2 = true →
      (s.execute).1.pc = s.pc + 1) := by
  refine ⟨?_, ?_, ?_⟩
  · intro a rest A hop hops hA
    subst hop
    subst hops
    rw [CPU.execute_some s _ _ hdec]
    refine ⟨?_, ?_⟩ <;> simp [executeCore, dispatch, hA]
  · intro r1 r2 a A v1 v2 hop hops hA h1 h2
    subst hop
    subst hops
    rw [CPU.execute_some s _ _ hdec]
    refine ⟨?_, ?_⟩ <;>
      by_cases hv : v1 = v2 <;>
      simp [executeCore, dispatch, hA, h1, h2, hv]
  · intro hJ hB hH hsucc
    rw [CPU.execute_some s op ops hdec] at hsucc ⊢
    cases hd : dispatch
        { s with control_signals := sigExecute, changed_registers := [], changed_memory := [] }
        op ops with
    | ok t =>
      rw [executeCore_ok _ _ _ _ hH hd]
      have hpc : t.pc = s.pc := (dispatch_ok_frame _ _ _ _ hd).2.2.2.2.1 hJ hB
      show t.pc + 1 = s.pc + 1
      rw [hpc]
    | error e =>
      rw [executeCore_error _ _ _ _ hH hd] at hsucc
      exact absurd hsucc (by simp)

/-- Witness for C1: with the program counter at 3, executing a decoded
JUMP 7 succeeds and lands pc exactly on 7. -/
theorem execute_pc_semantics_witness :
    (CPU.execute { initCPU with decoded := some ("JUMP", ["7"]), pc := 3 }).2 = true ∧
    (CPU.execute { initCPU with decoded := some ("JUMP", ["7"]), pc := 3 }).1.pc = 7 :=
  (execute_pc_semantics { initCPU with decoded := some ("JUMP", ["7"]), pc := 3 }
      "JUMP" ["7"] rfl).1 "7" [] 7 rfl rfl (by decide)

set_option maxHeartbeats 800000 in
/-- Claim C4: every execute call with a decoded opcode clears both change
sets at entry, so the result never depends on their prior contents; a
successful ADD, SUB, MOV or LOAD leaves changed-registers holding exactly
the destination register and changed-memory empty; a successful STORE
leaves changed-memory holding exactly the resolved target address and
changed-registers empty. -/
theorem execute_changesets (s : CPU) (op : String) (ops : List String)
    (hdec : s.decoded = some (op, ops)) :
    (∀ cr cm,
      CPU.execute { s with changed_registers := cr, changed_memory := cm } = s.execute) ∧
    ((op = "ADD" ∨ op = "SUB" ∨ op = "MOV" ∨ op = "LOAD") → (s.execute).2 = true →
      ∃ rd rest, ops = rd :: rest ∧
        (s.execute).1.changed_registers = [rd] ∧
        (s.execute).1.changed_memory = []) ∧
    (op = "STORE" → (s.execute).2 = true →
      ∃ rs a A, ops = [rs, a] ∧ parseAddr a = some A ∧
        (s.execute).1.changed_memory = [A] ∧
        (s.execute).1.changed_registers = []) := by
  refine ⟨?_, ?_, ?_⟩
  · intro cr cm
    have hdec2 : ({ s with changed_registers := cr, changed_memory := cm } : CPU).decoded
        = some (op, ops) := hdec
    rw [CPU.execute_some _ _ _ hdec2, CPU.execute_some _ _ _ hdec]
    rfl
  · intro hop hsucc
    rw [CPU.execute_some s op ops hdec] at hsucc ⊢
    rcases hop with h | h | h | h
    · subst h
      rcases ops with _ | ⟨o1, _ | ⟨o2, _ | ⟨o3, _ | ⟨o4, rest⟩⟩⟩⟩ <;>
        (try cases h1 : s.registers.get? o2) <;>
        (try cases h2 : s.registers.get? o3) <;>
        simp_all [executeCore, dispatch, setAdd]
    · subst h
      rcases ops with _ | ⟨o1, _ | ⟨o2, _ | ⟨o3, _ | ⟨o4, rest⟩⟩⟩⟩ <;>
        (try cases h1 : s.registers.get? o2) <;>
        (try cases h2 : s.registers.get? o3) <;>
        simp_all [executeCore, dispatch, setAdd]
    · subst h
      rcases ops with _ | ⟨o1, _ | ⟨o2, _ | ⟨o3, _ | ⟨o4, rest⟩⟩⟩⟩ <;>
        (try cases hm : pyInt o2) <;>
        simp_all [executeCore, dispatch, setAdd]
    · subst h
      rcases ops with _ | ⟨o1, _ | ⟨o2, _ | ⟨o3, _ | ⟨o4, rest⟩⟩⟩⟩ <;>
        (try cases hp : parseAddr o2) <;>
        simp_all [executeCore, dispatch, setAdd]
  · intro hop hsucc
    subst hop
    rw [CPU.execute_some s _ _ hdec] at hsucc ⊢
    rcases ops with _ | ⟨o1, _ | ⟨o2, _ | ⟨o3, rest⟩⟩⟩ <;>
      (try cases hp : parseAddr o2) <;>
      (try cases hg : s.registers.get? o1) <;>
      simp_all [executeCore, dispatch, setAdd] <;>
      exact ⟨o1, o2, ⟨rfl, rfl⟩, hp⟩

/-- Witness for C4: a successful MOV records exactly the destination
register and no memory address. -/
theorem execute_changesets_witness :
    ∃ rd rest, (["R1", "5"] : List String) = rd :: rest ∧
      (CPU.execute { initCPU with decoded := some ("MOV", ["R1", "5"]) }).1.changed_registers
        = [rd] ∧
      (CPU.execute { initCPU with decoded := some ("MOV", ["R1", "5"]) }).1.changed_memory
        = [] :=
  (execute_changesets { initCPU with decoded := some ("MOV", ["R1", "5"]) }
      "MOV" ["R1", "5"] rfl).2.1 (Or.inr (Or.inr (Or.inl rfl))) (by decide)

/-- Claim C6: when the decoded opcode is unknown, or its operands fail to
resolve (wrong operand count, missing register name on a read, malformed
numeric or address literal), execute halts the machine, returns the
failure outcome, does not advance pc, and leaves registers and memory
untouched. -/
theorem execute_failure_halts (s : CPU) (op : String) (ops : List String)
    (hdec : s.decoded = some (op, ops))
    (hbad : op ∉ knownOps ∨ (op ≠ "HALT" ∧ operandsResolve s.registers op ops = false)) :
    (s.execute).2 = false ∧ (s.execute).1.halted = true ∧
    (s.execute).1.pc = s.pc ∧ (s.execute).1.registers = s.registers ∧
    (s.execute).1.memory = s.memory := by
  have hH : op ≠ "HALT" := by
    rcases hbad with hb | hb
    · intro he
      subst he
      exact hb (by decide)
    · exact hb.1
  have hd : ∃ e, dispatch
      { s with control_signals := sigExecute, changed_registers := [], changed_memory := [] }
      op ops = .error e := by
    rcases hbad with hb | hb
    · exact ⟨_, dispatch_unknown _ _ _ hb⟩
    · exact dispatch_error_of_not_resolve _ _ _ hb.2
  obtain ⟨e, he⟩ := hd
  rw [CPU.execute_some s op ops hdec, executeCore_error _ _ _ _ hH he]
  obtain ⟨hr, hm, hpc, -, -, -, -, -, -, -⟩ := dispatch_error_frame _ _ _ _ he
  exact ⟨rfl, rfl, hpc, hr, hm⟩

/-- Witness for C6, the unknown-opcode scenario of the spec: after
loading ["FOO R1 R2"], fetching and decoding, the execute call fails,
halts, and changes no register. -/
theorem execute_failure_halts_witness :
    (((((initCPU.load_program ["FOO R1 R2"]).fetch).1.decode).1.execute).2 = false) ∧
    (((((initCPU.load_program ["FOO R1 R2"]).fetch).1.decode).1.execute).1.halted = true) ∧
    (((((initCPU.load_program ["FOO R1 R2"]).fetch).1.decode).1.execute).1.registers =
      ((((initCPU.load_program ["FOO R1 R2"]).fetch).1.decode).1).registers) := by
  have h := execute_failure_halts (((initCPU.load_program ["FOO R1 R2"]).fetch).1.decode).1
      "FOO" ["R1", "R2"] (by decide) (Or.inl (by decide))
  exact ⟨h.1, h.2.1, h.2.2.2.1⟩

/-- Claim C2 counterexample: the no-mutation-after-halt part fails.
After executing the one-line program ["MOV R1 5"], a fetch past the
program end sets halted; but `execute` never checks `halted`, and because
the CPU class never deletes the opcode/operands attributes, the stale
decoded MOV is still present: a further execute call while halted
re-executes it and advances pc from 1 to 2. -/
theorem halted_no_mutation_counterexample :
    (((((((initCPU.load_program ["MOV R1 5"]).fetch).1.decode).1.execute).1.fetch).1.halted
        = true) ∧
     ((((((initCPU.load_program ["MOV R1 5"]).fetch).1.decode).1.execute).1.fetch).1.pc = 1) ∧
     (((((((initCPU.load_program ["MOV R1 5"]).fetch).1.decode).1.execute).1.fetch).1.execute).1.pc
        = 2)) := by
  decide

/-- Claim C2 as amended: halted becomes true after a fetch with pc at or
past program end, after an execute of HALT, and after an execute of an
unknown opcode; fetch, decode and execute never clear it (only reset and
load do); fetch and decode never mutate registers, memory or pc, and an
execute with no pending decoded opcode mutates none of them either — but
an execute call made while halted with a stale decoded opcode still
re-executes it and may mutate registers, memory and pc. -/
theorem halted_lifecycle_amended (s : CPU) :
    ((s.instructions.length : Int) ≤ s.pc → (s.fetch).1.halted = true) ∧
    (∀ ops, s.decoded = some ("HALT", ops) → (s.execute).1.halted = true) ∧
    (∀ op ops, s.decoded = some (op, ops) → op ∉ knownOps →
      (s.execute).1.halted = true) ∧
    (s.halted = true →
      (s.fetch).1.halted = true ∧ (s.decode).1.halted = true ∧
      (s.execute).1.halted = true) ∧
    ((s.fetch).1.registers = s.registers ∧ (s.fetch).1.memory = s.memory ∧
      (s.fetch).1.pc = s.pc) ∧
    ((s.decode).1.registers = s.registers ∧ (s.decode).1.memory = s.memory ∧
      (s.decode).1.pc = s.pc) ∧
    (s.decoded = none →
      (s.execute).1.registers = s.registers ∧ (s.execute).1.memory = s.memory ∧
      (s.execute).1.pc = s.pc) ∧
    ((s.reset).halted = false ∧ ∀ p, (s.load_program p).halted = false) := by
  refine ⟨?_, ?_, ?_, ?_, ?_, ?_, ?_, rfl, fun p => rfl⟩
  · intro h
    unfold CPU.fetch
    rw [if_pos h]
  · intro ops h
    rw [CPU.execute_some s _ _ h, executeCore_halt]
  · intro op ops h hk
    have hH : op ≠ "HALT" := by
      intro he
      subst he
      exact hk (by decide)
    rw [CPU.execute_some s _ _ h,
      executeCore_error _ _ _ _ hH (dispatch_unknown _ _ _ hk)]
  · intro h
    exact ⟨fetch_halted_mono s h, decode_halted_mono s h, execute_halted_mono s h⟩
  · obtain ⟨f1, f2, f3, -, -, -, -, -⟩ := fetch_frame s
    exact ⟨f1, f2, f3⟩
  · obtain ⟨d1, d2, d3, -, -, -, -, -, -⟩ := decode_frame s
    exact ⟨d1, d2, d3⟩
  · intro h
    rw [CPU.execute_none s h]
    exact ⟨rfl, rfl, rfl⟩

/-- Witness for the amended C2: on an already-halted machine, a decode
call leaves halted set. -/
theorem halted_lifecycle_amended_witness :
    (CPU.decode { initCPU with halted := true }).1.halted = true :=
  ((halted_lifecycle_amended { initCPU with halted := true }).2.2.2.1 rfl).2.1

/-- Claim C3 counterexample: a destination operand outside R0..R7 does
not halt the machine; `self.registers[rd] = ...` silently creates the
key. Executing the program ["MOV R9 5"] succeeds (halted stays false) and
adds the new register key R9. -/
theorem register_keyset_counterexample :
    (((((initCPU.load_program ["MOV R9 5"]).fetch).1.decode).1.execute).2 = true) ∧
    (((((initCPU.load_program ["MOV R9 5"]).fetch).1.decode).1.execute).1.halted = false) ∧
    ("R9" ∈ ((((initCPU.load_program ["MOV R9 5"]).fetch).1.decode).1.execute).1.registers.keys) := by
  decide

/-- Claim C3 as amended: the machine starts with exactly the keys R0..R7
and reset restores exactly that set; no operation ever removes a register
key; a source-register operand outside the key set halts the machine as
an operand failure with the register map untouched; but a destination
operand outside the set does not halt — the write silently appends the
new key, so the key set can grow. -/
theorem register_keyset_amended (s : CPU) :
    (initCPU.registers.keys = ["R0", "R1", "R2", "R3", "R4", "R5", "R6", "R7"] ∧
      (s.reset).registers.keys = ["R0", "R1", "R2", "R3", "R4", "R5", "R6", "R7"]) ∧
    (∀ k, k ∈ s.registers.keys →
      k ∈ (s.fetch).1.registers.keys ∧ k ∈ (s.decode).1.registers.keys ∧
      k ∈ (s.execute).1.registers.keys ∧ ∀ p, k ∈ (s.load_program p).registers.keys) ∧
    (∀ rd rs1 rs2, s.decoded = some ("ADD", [rd, rs1, rs2]) →
      s.registers.get? rs1 = none →
      (s.execute).2 = false ∧ (s.execute).1.halted = true ∧
      (s.execute).1.registers = s.registers) ∧
    (∀ rd imm v, s.decoded = some ("MOV", [rd, imm]) → pyInt imm = some v →
      (s.execute).2 = true ∧
      (s.execute).1.registers.keys =
        (if rd ∈ s.registers.keys then s.registers.keys else s.registers.keys ++ [rd])) := by
  refine ⟨⟨rfl, rfl⟩, ?_, ?_, ?_⟩
  · intro k hk
    obtain ⟨f1, -, -, -, -, -, -, -⟩ := fetch_frame s
    obtain ⟨d1, -, -, -, -, -, -, -, -⟩ := decode_frame s
    refine ⟨?_, ?_, execute_keys_mono s k hk, fun p => hk⟩
    · rw [f1]; exact hk
    · rw [d1]; exact hk
  · intro rd rs1 rs2 h h1
    have he : dispatch
        { s with control_signals := sigExecute, changed_registers := [], changed_memory := [] }
        "ADD" [rd, rs1, rs2] = .error
          { s with control_signals := sigExecute, changed_registers := [], changed_memory := [] } := by
      simp [dispatch, h1]
    rw [CPU.execute_some s _ _ h, executeCore_error _ _ _ _ (by decide) he]
    exact ⟨rfl, rfl, rfl⟩
  · intro rd imm v h hv
    have he : dispatch
        { s with control_signals := sigExecute, changed_registers := [], changed_memory := [] }
        "MOV" [rd, imm] = .ok
          { s with control_signals := sigExecute, changed_memory := []
                   registers := s.registers.set rd v
                   changed_registers := setAdd [] rd } := by
      simp [dispatch, hv, setAdd]
    rw [CPU.execute_some s _ _ h, executeCore_ok _ _ _ _ (by decide) he]
    refine ⟨rfl, ?_⟩
    show (s.registers.set rd v).keys = _
    rw [Dict.keys_set]

/-- Witness for the amended C3: MOV into the unknown register R9 succeeds
and appends the key R9 to the register map. -/
theorem register_keyset_amended_witness :
    (CPU.execute { initCPU with decoded := some ("MOV", ["R9", "5"]) }).1.registers.keys =
      ["R0", "R1", "R2", "R3", "R4", "R5", "R6", "R7", "R9"] := by
  have h := (register_keyset_amended
      { initCPU with decoded := some ("MOV", ["R9", "5"]) }).2.2.2 "R9" "5" 5 rfl (by decide)
  rw [h.2]
  decide
